import Mathlib

/-!
Shallow embedding of the jsondrop multi-tenant JSON document store
(Go sources: internal/database, internal/events, internal/api, internal/models),
with theorems settling the frozen claims about its specification.

Conventions of the embedding:
* Go `int64` quota counters become `Int`; byte sizes come from
  `String.utf8ByteSize`, matching Go's `len` on a UTF-8 string.
* Go maps become association lists (`List (key × value)`) read through
  `lookupKey`; iteration order is irrelevant to every property proved here.
* Fallible Go paths (errors, panics) become `Option`/outcome sums; a Go
  runtime panic is modelled as `none`.
* JSON (de)serialization of a document's field map is kept abstract: a stored
  row carries the serialized text (for sizes) or the decoded field map (for
  filtering), whichever the modelled function actually reads.
-/

namespace JsonDrop

/-- First-match lookup in an association list, the model of reading a Go map. -/
def lookupKey {κ α : Type} [DecidableEq κ] (k : κ) : List (κ × α) → Option α
  | [] => none
  | p :: rest => if p.1 = k then some p.2 else lookupKey k rest

/-- Overwrite the binding of an existing key, the model of writing a Go map
entry that is already present. -/
def setKey {κ α : Type} [DecidableEq κ] (k : κ) (v : α) : List (κ × α) → List (κ × α)
  | [] => []
  | p :: rest => if p.1 = k then (k, v) :: rest else p :: setKey k v rest

/-! ## Identifier sanitizer (internal/database/validation.go) -/

/-- One character of the body of `identifierPattern` = `[a-zA-Z0-9_]`. -/
def isIdentifierChar (c : Char) : Bool :=
  c.isAlpha || c.isDigit || c = '_'

/-- `identifierPattern.MatchString name` for the anchored regex
`^[a-zA-Z_][a-zA-Z0-9_]*$` (validation.go line 11). -/
def matchesIdentifierPattern (name : String) : Bool :=
  match name.toList with
  | [] => false
  | c :: cs => (c.isAlpha || c = '_') && cs.all isIdentifierChar

/-- ASCII upper-casing of one character, the effect of Go `strings.ToUpper`
on the ASCII-only identifiers the pattern check admits. -/
def upperChar (c : Char) : Char :=
  if c.isLower then Char.ofNat (c.toNat - 32) else c

/-- `strings.ToUpper name` on the ASCII strings this code compares against
its all-ASCII keyword denylist. -/
def upperString (s : String) : String :=
  String.mk (s.toList.map upperChar)

/-- The fixed denylist of SQL reserved keywords (validation.go lines 32-36). -/
def reservedKeywords : List String :=
  ["SELECT", "INSERT", "UPDATE", "DELETE", "DROP", "CREATE", "ALTER",
   "TABLE", "INDEX", "VIEW", "DATABASE", "SCHEMA", "WHERE", "FROM",
   "JOIN", "UNION", "ORDER", "GROUP", "HAVING", "LIMIT", "OFFSET"]

/-- `ValidateIdentifier` (validation.go lines 16-45): `true` = the name is
accepted. `len(name)` in Go counts bytes, hence `utf8ByteSize`. -/
def validateIdentifier (name : String) : Bool :=
  if name = "" then false
  else if name.utf8ByteSize > 64 then false
  else if !(matchesIdentifierPattern name) then false
  else if reservedKeywords.contains (upperString name) then false
  else true

/-! ## Name gates and generated SQL (internal/api/handlers.go,
internal/database/catalog.go, internal/database/documents.go)

The only check either handler applies to a caller-supplied collection/schema
name before the database layer interpolates it into SQL text is a
non-emptiness test; `ValidateIdentifier`/`SafeIdentifier` are defined and
unit-tested but never invoked on these paths. -/

/-- handlers.go `CreateSchema` (lines 51-55): the sole check on the
caller-supplied schema name. -/
def createSchemaNameAccepted (schemaName : String) : Bool :=
  schemaName ≠ ""

/-- handlers.go `InsertDocument` (lines 110-114): the sole check on the
caller-supplied collection name. -/
def insertCollectionNameAccepted (collection : String) : Bool :=
  collection ≠ ""

/-- catalog.go `createCollectionTable` (lines 354-360): the CREATE TABLE text
with the collection name interpolated verbatim. -/
def createCollectionTableSQL (collectionName : String) : String :=
  "CREATE TABLE IF NOT EXISTS " ++ collectionName ++
    " (id TEXT PRIMARY KEY, created_at INTEGER NOT NULL, updated_at INTEGER NOT NULL, data TEXT NOT NULL)"

/-- documents.go `InsertDocument` (lines 38-41): the INSERT text with the
collection name interpolated verbatim (whitespace normalised). -/
def insertDocumentSQL (collection : String) : String :=
  "INSERT INTO " ++ collection ++ " (id, created_at, updated_at, data) VALUES (?, ?, ?, ?)"

/-- documents.go `DeleteDocument` (line 301): the DELETE text with the
collection name interpolated verbatim. -/
def deleteDocumentSQL (collection : String) : String :=
  "DELETE FROM " ++ collection ++ " WHERE id = ?"

/-! ## Field values and document validation (internal/models) -/

/-- A decoded JSON field value as Go's `encoding/json` produces it inside
`map[string]interface{}`: `string`, a number (`float64`; modelled as `Rat`),
`bool`, or any other value (`nil`, arrays, nested objects), which every
modelled `switch` sends to its `default` branch. -/
inductive Value where
  | str (s : String)
  | num (q : Rat)
  | bool (b : Bool)
  | other
deriving DecidableEq, Repr

/-- Go `FieldType` is a string; the valid ones are "string", "number", "bool". -/
abbrev FieldType := String

/-- `FieldType.IsValid` (models.go). -/
def fieldTypeIsValid (ft : FieldType) : Bool :=
  ft = "string" || ft = "number" || ft = "bool"

abbrev DocData := List (String × Value)
abbrev SchemaFields := List (String × FieldType)

/-- `validateFieldValue` (models `ValidateDocument` helper): `true` = the
value has the declared type. The Go "number" case accepts `float64`, `int`,
`int64` and `float32`, all of which decode to `Value.num` here. -/
def validateFieldValue (value : Value) (expectedType : FieldType) : Bool :=
  if expectedType = "string" then
    match value with
    | .str _ => true
    | _ => false
  else if expectedType = "number" then
    match value with
    | .num _ => true
    | _ => false
  else if expectedType = "bool" then
    match value with
    | .bool _ => true
    | _ => false
  else false

/-- `ValidateDocument` (models): every field of `data` must be declared in the
schema with a matching type, and every schema field must be present. -/
def validateDocument (data : DocData) (schemaFields : SchemaFields) : Bool :=
  (data.all fun kv =>
    match lookupKey kv.1 schemaFields with
    | none => false
    | some t => validateFieldValue kv.2 t) &&
  (schemaFields.all fun kt => (lookupKey kt.1 data).isSome)

/-! ## Per-tenant store with quota accounting
(internal/database/documents.go, catalog.go)

One tenant's observable state: its catalog row (`quota_used`, `quota_limit`)
and one collection's rows (`id`, serialized `data` text). Each operation is
modelled end-to-end, threading the state through its intermediate SQL
statements, so partial-failure paths (the quota rollback) leave exactly the
state the statements produce. -/

/-- The quota columns of one `databases` catalog row. -/
structure TenantRecord where
  quotaUsed : Int
  quotaLimit : Int
deriving DecidableEq, Repr

/-- One tenant's state: catalog quota row plus the rows of one collection
table, each row `(id, data)` with `data` the serialized JSON text. -/
structure Store where
  tenant : TenantRecord
  rows : List (String × String)
deriving DecidableEq, Repr

/-- `int64(len(dataJSON))`: the serialized size charged against the quota. -/
def documentSize (dataJSON : String) : Int :=
  (dataJSON.utf8ByteSize : Int)

/-- `CreateDatabase` (catalog.go lines 118-123): the fresh catalog row has
`quota_used = 0` and `quota_limit = defaultQuotaMB * 1024 * 1024`. -/
def createDatabaseTenant (defaultQuotaMB : Int) : TenantRecord :=
  { quotaUsed := 0, quotaLimit := defaultQuotaMB * 1024 * 1024 }

inductive InsertOutcome where
  | ok
  | quotaExceeded
deriving DecidableEq, Repr

inductive DeleteOutcome where
  | ok
  | notFound
deriving DecidableEq, Repr

/-- `updateQuotaAfterInsert` (documents.go lines 81-100): read the quota row,
reject when the new usage would exceed the limit, otherwise write it back.
`none` is the "quota exceeded" error. -/
def updateQuotaAfterInsert (t : TenantRecord) (additionalSize : Int) : Option TenantRecord :=
  let newQuotaUsed := t.quotaUsed + additionalSize
  if newQuotaUsed > t.quotaLimit then none
  else some { t with quotaUsed := newQuotaUsed }

/-- `InsertDocument` (documents.go lines 14-78), error-free storage: insert
the row, then run the quota check; on quota rejection delete the row again
(the rollback `DELETE FROM collection WHERE id = ?`). -/
def insertDocument (s : Store) (docId : String) (dataJSON : String) : InsertOutcome × Store :=
  let rows1 := s.rows ++ [(docId, dataJSON)]
  match updateQuotaAfterInsert s.tenant (documentSize dataJSON) with
  | none =>
    (InsertOutcome.quotaExceeded,
     { tenant := s.tenant, rows := rows1.filter fun r => r.1 ≠ docId })
  | some t1 => (InsertOutcome.ok, { tenant := t1, rows := rows1 })

/-- `DeleteDocument` (documents.go lines 279-341), error-free storage: read
the stored row's size, delete the row, then decrement the quota, floored at
zero (`if newQuotaUsed < 0 { newQuotaUsed = 0 }`). -/
def deleteDocument (s : Store) (docId : String) : DeleteOutcome × Store :=
  match lookupKey docId s.rows with
  | none => (DeleteOutcome.notFound, s)
  | some dataJSON =>
    let rows1 := s.rows.filter fun r => r.1 ≠ docId
    let newQuotaUsed := s.tenant.quotaUsed - documentSize dataJSON
    let flooredQuotaUsed := if newQuotaUsed < 0 then 0 else newQuotaUsed
    (DeleteOutcome.ok,
     { tenant := { s.tenant with quotaUsed := flooredQuotaUsed }, rows := rows1 })

/-- The claim C2 invariant, strengthened with the nonnegativity of the limit
(established at creation, never mutated afterwards) to make it inductive. -/
def QuotaInv (s : Store) : Prop :=
  0 ≤ s.tenant.quotaLimit ∧ s.tenant.quotaUsed ≤ s.tenant.quotaLimit

/-! ## Interleaved inserts on one tenant (claim C4)

`InsertDocument` runs three storage statements with no lock or transaction
around them: (0) `INSERT` the document row, (1) `SELECT quota_used,
quota_limit`, (2) check and either `UPDATE quota_used = read + size` or
roll the row back.  Two concurrent inserts interleave these steps; each
writer keeps the values it read in step (1). -/

/-- The tenant state shared by concurrent writers: the catalog quota row and
the collection rows `(id, size)`. -/
structure RaceShared where
  quotaUsed : Int
  quotaLimit : Int
  rows : List (String × Nat)
deriving DecidableEq, Repr

/-- One in-flight `InsertDocument` call: its document, its program counter
over the three storage statements, the quota values it read, its outcome. -/
structure RaceWriter where
  docId : String
  size : Nat
  pc : Nat
  readUsed : Int
  readLimit : Int
  result : Option Bool
deriving DecidableEq, Repr

/-- One storage statement of one in-flight insert (documents.go lines 38-54
and 81-100). -/
def raceStepWriter (s : RaceShared) (w : RaceWriter) : RaceShared × RaceWriter :=
  match w.pc with
  | 0 =>
    ({ s with rows := s.rows ++ [(w.docId, w.size)] }, { w with pc := 1 })
  | 1 =>
    (s, { w with readUsed := s.quotaUsed, readLimit := s.quotaLimit, pc := 2 })
  | 2 =>
    let newQuotaUsed := w.readUsed + (w.size : Int)
    if newQuotaUsed > w.readLimit then
      ({ s with rows := s.rows.filter fun r => r.1 ≠ w.docId },
       { w with pc := 3, result := some false })
    else
      ({ s with quotaUsed := newQuotaUsed }, { w with pc := 3, result := some true })
  | _ => (s, w)

structure RaceState where
  shared : RaceShared
  writers : List RaceWriter
deriving DecidableEq, Repr

/-- Run one step of writer `i` (no-op for an index out of range). -/
def raceStep (st : RaceState) (i : Nat) : RaceState :=
  match st.writers[i]? with
  | none => st
  | some w =>
    let p := raceStepWriter st.shared w
    { shared := p.1, writers := st.writers.set i p.2 }

/-- Run an interleaving: the schedule lists which writer takes each step. -/
def runSchedule (st : RaceState) (sched : List Nat) : RaceState :=
  sched.foldl raceStep st

/-- A fresh writer about to insert a document of `size` bytes. -/
def mkRaceWriter (docId : String) (size : Nat) : RaceWriter :=
  { docId := docId, size := size, pc := 0, readUsed := 0, readLimit := 0, result := none }

/-- Tenant with limit 10 and nothing used; two concurrent inserts of 6 bytes
each (together they exceed the remaining quota, alone each fits). -/
def raceInit : RaceState :=
  { shared := { quotaUsed := 0, quotaLimit := 10, rows := [] },
    writers := [mkRaceWriter "doc_a" 6, mkRaceWriter "doc_b" 6] }

/-- The interleaving where both writers insert their row and read the quota
before either commits. -/
def raceFinal : RaceState :=
  runSchedule raceInit [0, 1, 0, 1, 0, 1]

/-! ## Querying and filtering (internal/database/documents.go lines 156-276,
internal/api/handlers.go lines 318-352) -/

/-- One row of a collection as `QueryDocuments` scans it: id, `created_at`,
and the decoded field map. -/
structure DocRow where
  id : String
  createdAt : Int
  data : DocData
deriving DecidableEq, Repr

/-- `ORDER BY created_at DESC`: row `a` precedes row `b`. -/
def createdDesc (a b : DocRow) : Prop :=
  b.createdAt ≤ a.createdAt

instance : DecidableRel createdDesc := fun a b =>
  inferInstanceAs (Decidable (b.createdAt ≤ a.createdAt))

instance : IsTotal DocRow createdDesc :=
  ⟨fun a b => Int.le_total b.createdAt a.createdAt⟩

instance : IsTrans DocRow createdDesc :=
  ⟨fun _ _ _ hab hbc => le_trans hbc hab⟩

/-- The row sequence the `SELECT ... ORDER BY created_at DESC` returns. -/
def sortByCreatedDesc (rows : List DocRow) : List DocRow :=
  List.insertionSort createdDesc rows

/-- `strconv.ParseBool` (exact): the twelve accepted literals. -/
def parseBoolGo (s : String) : Option Bool :=
  if s = "1" || s = "t" || s = "T" || s = "true" || s = "TRUE" || s = "True" then some true
  else if s = "0" || s = "f" || s = "F" || s = "false" || s = "FALSE" || s = "False" then some false
  else none

/-- A non-empty all-digit character run read as a decimal `Nat`. -/
def parseDigits (cs : List Char) : Option Nat :=
  if cs = [] then none
  else if cs.all (·.isDigit) then
    some (cs.foldl (fun n c => n * 10 + (c.toNat - 48)) 0)
  else none

/-- `strconv.ParseFloat` modelled on plain decimal notation (optional sign,
digits, optionally a dot and more digits), the fragment document filters
exercise; exponents, hex floats, Inf/NaN and float64 rounding are outside it. -/
def parseFloatQ (s : String) : Option Rat :=
  let core : List Char → Option Rat := fun t =>
    match t.splitOn '.' with
    | [intPart] => (parseDigits intPart).map (fun n => (n : Rat))
    | [intPart, fracPart] =>
      match parseDigits intPart, parseDigits fracPart with
      | some i, some f => some ((i : Rat) + (f : Rat) / ((10 : Rat) ^ fracPart.length))
      | _, _ => none
    | _ => none
  match s.toList with
  | [] => none
  | c :: rest =>
    if c = '-' then (core rest).map (fun q => -q)
    else if c = '+' then core rest
    else core (c :: rest)

/-- `matchesValue` (documents.go lines 256-276): switch on the stored value's
dynamic type; `Value.other` takes the `fmt.Sprintf("%v", nil)` default
branch. -/
def matchesValue (fieldValue : Value) (filterValue : String) : Bool :=
  match fieldValue with
  | .str v => v = filterValue
  | .num v =>
    match parseFloatQ filterValue with
    | some f => v = f
    | none => false
  | .bool v =>
    match parseBoolGo filterValue with
    | some b => v = b
    | none => false
  | .other => "<nil>" = filterValue

abbrev Filters := List (String × List String)

/-- `matchesFilters` (documents.go lines 222-253): every filtered field must
be present and match one of its values (OR within a field, AND across
fields); a field filter with no values is skipped. -/
def matchesFilters (doc : DocRow) (filters : Filters) : Bool :=
  filters.all fun f =>
    if f.2.isEmpty then true
    else
      match lookupKey f.1 doc.data with
      | none => false
      | some v => f.2.any fun fv => matchesValue v fv

/-- `QueryDocuments` (documents.go lines 157-218): `LIMIT` is emitted only
when `limit > 0` and `OFFSET` only when `offset > 0`, both inside the
`ORDER BY created_at DESC` SQL, and the filters are applied in memory to the
rows the SQL returned.  (Callers never produce `limit ≤ 0 < offset`, which
SQLite would reject as a syntax error; it is modelled as plain offset
application.) -/
def queryDocuments (rows : List DocRow) (limit offset : Int) (filters : Filters) : List DocRow :=
  let sorted := sortByCreatedDesc rows
  let paged :=
    if limit > 0 then
      if offset > 0 then (sorted.drop offset.toNat).take limit.toNat
      else sorted.take limit.toNat
    else
      if offset > 0 then sorted.drop offset.toNat
      else sorted
  paged.filter fun d => matchesFilters d filters

/-- `strconv.Atoi`: optional sign, decimal digits, 64-bit range check. -/
def goAtoi (s : String) : Option Int :=
  let core : Option Int :=
    match s.toList with
    | [] => none
    | c :: rest =>
      if c = '-' then (parseDigits rest).map (fun n => -(n : Int))
      else if c = '+' then (parseDigits rest).map (fun n => (n : Int))
      else (parseDigits (c :: rest)).map (fun n => (n : Int))
  match core with
  | some v =>
    if v < -9223372036854775808 ∨ 9223372036854775807 < v then none else some v
  | none => none

/-- handlers.go `QueryDocuments` (lines 319-329): the effective limit — 100
by default, a parsed positive value otherwise, capped at 1000. The empty
string is what `r.URL.Query().Get` yields for an absent parameter. -/
def parseLimitParam (limitStr : String) : Int :=
  if limitStr = "" then 100
  else
    match goAtoi limitStr with
    | some v => if v > 0 then (if v > 1000 then 1000 else v) else 100
    | none => 100

/-- handlers.go `QueryDocuments` (lines 331-335): the effective offset — 0 by
default, a parsed nonnegative value otherwise. -/
def parseOffsetParam (offsetStr : String) : Int :=
  if offsetStr = "" then 0
  else
    match goAtoi offsetStr with
    | some v => if v ≥ 0 then v else 0
    | none => 0

/-- The public query path: handler parameter handling composed with the
database-layer query. -/
def apiQueryDocuments (rows : List DocRow) (limitStr offsetStr : String)
    (filters : Filters) : List DocRow :=
  queryDocuments rows (parseLimitParam limitStr) (parseOffsetParam offsetStr) filters

/-! ## Change broadcasting (internal/events/broadcaster.go) -/

/-- `models.ChangeEvent` as the broadcaster transports it. -/
structure ChangeEvent where
  eventType : String
  databaseID : String
  collection : String
  documentID : String
  data : DocData
  timestamp : Int
deriving DecidableEq, Repr

/-- One listener's buffered event channel (`make(chan models.ChangeEvent, 10)`,
broadcaster.go lines 44 and 78): the queued events, capacity 10. -/
structure QListener where
  queue : List ChangeEvent
deriving DecidableEq, Repr

/-- The non-blocking send (`select { case listener.Events <- event: ...
default: }`, broadcaster.go lines 127-146): enqueue when the channel has
space, otherwise drop the event for this listener. -/
def sendNonBlocking (e : ChangeEvent) (l : QListener) : QListener :=
  if l.queue.length < 10 then { queue := l.queue ++ [e] } else l

/-- The broadcaster's two registries (broadcaster.go lines 13-17):
tenant-level listeners per database id, and collection-level listeners per
(database id, collection). -/
structure BroadcastState where
  databaseListeners : List (String × List QListener)
  collectionListeners : List (String × List (String × List QListener))
deriving DecidableEq, Repr

/-- `Broadcast` (broadcaster.go lines 117-147): look up the event database's
tenant-level listeners and the (database, event collection) listeners and
send to each without blocking; every other registry entry is untouched, and
the call is total — it never reports a delivery failure. -/
def broadcast (b : BroadcastState) (dbID : String) (e : ChangeEvent) : BroadcastState :=
  { databaseListeners :=
      b.databaseListeners.map fun p =>
        if p.1 = dbID then (p.1, p.2.map (sendNonBlocking e)) else p,
    collectionListeners :=
      b.collectionListeners.map fun p =>
        if p.1 = dbID then
          (p.1, p.2.map fun q =>
            if q.1 = e.collection then (q.1, q.2.map (sendNonBlocking e)) else q)
        else p }

/-- The event queues of the tenant-level listeners registered for `db`. -/
def dbQueues (b : BroadcastState) (db : String) : List (List ChangeEvent) :=
  ((lookupKey db b.databaseListeners).getD []).map (·.queue)

/-- The event queues of the collection-level listeners registered for
`(db, col)`. -/
def colQueues (b : BroadcastState) (db col : String) : List (List ChangeEvent) :=
  ((lookupKey col ((lookupKey db b.collectionListeners).getD [])).getD []).map (·.queue)

/-! ## Subscription cancellation and the staleness sweep (claim C9)

A `Listener`'s `Done` channel is Go heap state that outlives its registry
membership; `close` on a channel that is already closed (or nil) is a runtime
panic, modelled as `none`. -/

/-- The channel-relevant state of one listener: whether `Done` is closed and
its `LastPing` timestamp. -/
structure SweepListener where
  doneClosed : Bool
  lastPing : Int
deriving DecidableEq, Repr

/-- The tenant-level registry plus the heap of listener objects the handlers
still hold (keyed by an id standing for the Go pointer). -/
structure ListenerRegistry where
  databaseListeners : List (String × List Nat)
  listenerState : List (Nat × SweepListener)
deriving DecidableEq, Repr

/-- Go `close(listener.Done)`: panics (`none`) when the channel is already
closed, or when the pointer is not a live listener (nil channel). -/
def closeDone (hp : List (Nat × SweepListener)) (lid : Nat) :
    Option (List (Nat × SweepListener)) :=
  match lookupKey lid hp with
  | some st => if st.doneClosed then none else some (setKey lid { st with doneClosed := true } hp)
  | none => none

/-- `delete(listeners, listener)` plus dropping the database entry once its
set is empty (broadcaster.go lines 64-69). -/
def removeDbListener (reg : List (String × List Nat)) (dbID : String) (lid : Nat) :
    List (String × List Nat) :=
  (reg.map fun p =>
      if p.1 = dbID then (p.1, p.2.filter fun x => x ≠ lid) else p).filter
    fun p => !(p.1 = dbID && p.2.isEmpty)

/-- `Unsubscribe` (broadcaster.go lines 60-72): remove the listener from the
registry, then unconditionally `close(listener.Done)`. -/
def unsubscribe (b : ListenerRegistry) (dbID : String) (lid : Nat) :
    Option ListenerRegistry :=
  let reg := removeDbListener b.databaseListeners dbID lid
  match closeDone b.listenerState lid with
  | none => none
  | some hp => some { databaseListeners := reg, listenerState := hp }

/-- The inner loop of `cleanupRoutine` over one database entry's listeners
(broadcaster.go lines 169-176): evict and `close(listener.Done)` for every
listener not pinged within the 120-second staleness threshold. -/
def sweepListeners (now : Int) :
    List Nat → List (Nat × SweepListener) → Option (List Nat × List (Nat × SweepListener))
  | [], hp => some ([], hp)
  | lid :: rest, hp =>
    match lookupKey lid hp with
    | none => none
    | some l =>
      if now - l.lastPing > 120 then
        match closeDone hp lid with
        | none => none
        | some hp1 => sweepListeners now rest hp1
      else
        match sweepListeners now rest hp with
        | none => none
        | some (keep, hp1) => some (lid :: keep, hp1)

/-- `cleanupRoutine`'s pass over the tenant-level registry (broadcaster.go
lines 168-181), dropping database entries left empty. -/
def cleanupSweepDb (now : Int) :
    List (String × List Nat) → List (Nat × SweepListener) →
      Option (List (String × List Nat) × List (Nat × SweepListener))
  | [], hp => some ([], hp)
  | entry :: rest, hp =>
    match sweepListeners now entry.2 hp with
    | none => none
    | some (keep, hp1) =>
      match cleanupSweepDb now rest hp1 with
      | none => none
      | some (entries, hp2) =>
        some ((if keep.isEmpty then entries else (entry.1, keep) :: entries), hp2)

/-- One tick of the background staleness sweep over the tenant-level
registry. -/
def cleanupSweep (b : ListenerRegistry) (now : Int) : Option ListenerRegistry :=
  (cleanupSweepDb now b.databaseListeners b.listenerState).map fun p =>
    { databaseListeners := p.1, listenerState := p.2 }

/-- One tenant-level listener (id 0, `Done` open, last ping at time 0)
subscribed for tenant "db_1". -/
def regOne : ListenerRegistry :=
  { databaseListeners := [("db_1", [0])],
    listenerState := [(0, { doneClosed := false, lastPing := 0 })] }

/-! ## Helper lemmas -/

theorem lookupKey_none_mem {κ α : Type} [DecidableEq κ] (k : κ) (l : List (κ × α))
    (h : lookupKey k l = none) : ∀ r ∈ l, r.1 ≠ k := by
  induction l with
  | nil => intro r hr; cases hr
  | cons p rest ih =>
    by_cases hpk : p.1 = k
    · simp [lookupKey, hpk] at h
    · simp only [lookupKey, if_neg hpk] at h
      intro r hr
      rcases List.mem_cons.1 hr with rfl | hr2
      · exact hpk
      · exact ih h r hr2

theorem lookupKey_none_filter {κ α : Type} [DecidableEq κ] (k : κ) (l : List (κ × α))
    (h : lookupKey k l = none) : (l.filter fun r => r.1 ≠ k) = l := by
  rw [List.filter_eq_self]
  intro r hr
  simpa using lookupKey_none_mem k l h r hr

theorem lookupKey_map_update {κ β : Type} [DecidableEq κ] (a k : κ) (f : β → β)
    (l : List (κ × β)) :
    lookupKey k (l.map fun p => if p.1 = a then (p.1, f p.2) else p)
      = if k = a then (lookupKey k l).map f else lookupKey k l := by
  induction l with
  | nil => simp [lookupKey]
  | cons p rest ih =>
    simp only [List.map_cons]
    by_cases hpa : p.1 = a
    · by_cases hpk : p.1 = k
      · have hka : k = a := by rw [← hpk, hpa]
        simp [lookupKey, hpa, hpk, hka]
      · have hka : ¬(k = a) := fun h => hpk (by rw [hpa, ← h])
        have hak : ¬(a = k) := fun h => hka h.symm
        simp [lookupKey, hpa, hpk, hka, hak, ih]
    · by_cases hpk : p.1 = k
      · have hka : ¬(k = a) := fun h => hpa (by rw [hpk, h])
        simp [lookupKey, hpa, hpk, hka]
      · simp [lookupKey, hpa, hpk, ih]

/-! ## Claim theorems -/

/-- C1. The claim says every caller-supplied collection/schema name passes
Identifier Sanitizer validation before being interpolated into generated SQL.
The code defines and unit-tests `ValidateIdentifier` but never calls it on
any production path: the handlers' only gate is non-emptiness, so a name the
sanitizer rejects — here the spec's own example `"users; DROP TABLE x--"` —
is accepted by both gates and lands verbatim inside the CREATE TABLE, INSERT
and DELETE statements, while the sanitizer does accept the spec's positive
example `"user_profiles"`. -/
theorem createSchema_and_documentOps_skip_sanitizer :
    createSchemaNameAccepted "users; DROP TABLE x--" = true ∧
    insertCollectionNameAccepted "users; DROP TABLE x--" = true ∧
    validateIdentifier "users; DROP TABLE x--" = false ∧
    validateIdentifier "user_profiles" = true ∧
    createCollectionTableSQL "users; DROP TABLE x--"
      = "CREATE TABLE IF NOT EXISTS users; DROP TABLE x-- (id TEXT PRIMARY KEY, created_at INTEGER NOT NULL, updated_at INTEGER NOT NULL, data TEXT NOT NULL)" ∧
    insertDocumentSQL "users; DROP TABLE x--"
      = "INSERT INTO users; DROP TABLE x-- (id, created_at, updated_at, data) VALUES (?, ?, ?, ?)" ∧
    deleteDocumentSQL "users; DROP TABLE x--"
      = "DELETE FROM users; DROP TABLE x-- WHERE id = ?" := by
  refine ⟨by decide, by decide, by decide, by decide, rfl, rfl, rfl⟩

/-- C4. The claim says the quota check-and-reserve is atomic, so concurrent
inserts whose sizes exceed the remaining quota cannot all succeed. The code
runs INSERT / SELECT quota / UPDATE quota with no lock or transaction: in the
interleaving where both writers insert and read `quota_used = 0` before
either commits, both 6-byte inserts into a 10-byte-limit tenant succeed, the
table holds 12 stored bytes (past the limit), and the recorded `quota_used`
is 6 — the second commit silently overwrote the first reservation. -/
theorem concurrent_inserts_defeat_quota_check :
    (raceFinal.writers.map (·.result)) = [some true, some true] ∧
    (raceFinal.shared.rows.map (·.2)).sum = 12 ∧
    raceFinal.shared.quotaLimit = 10 ∧
    raceFinal.shared.quotaUsed = 6 ∧
    raceInit.shared.quotaUsed = 0 ∧
    ((6 : Int) ≤ 10 ∧ ¬((12 : Int) ≤ 10)) := by
  refine ⟨by decide, by decide, by decide, by decide, by decide, by decide, by decide⟩

/-- C9. The claim says cancelling a subscription is idempotent and never
panics, including a second call or a call after the staleness sweep evicted
the listener. `Unsubscribe` ends with an unconditional `close(listener.Done)`
and closing a closed Go channel panics (modelled as `none`): the second
`Unsubscribe`, and an `Unsubscribe` after the sweep already evicted and
closed the same listener, both panic. -/
theorem unsubscribe_twice_panics :
    (unsubscribe regOne "db_1" 0).isSome = true ∧
    ((unsubscribe regOne "db_1" 0).bind fun b1 => unsubscribe b1 "db_1" 0) = none ∧
    (cleanupSweep regOne 200).isSome = true ∧
    ((cleanupSweep regOne 200).bind fun b1 => unsubscribe b1 "db_1" 0) = none := by
  refine ⟨by decide, by decide, by decide, by decide⟩

/-- C2. The quota invariant `quota-used ≤ quota-limit` (together with the
nonnegativity of the limit, which creation establishes and no operation
mutates) holds at tenant creation — `quota_used = 0`, `quota_limit` the
positive configured default — and is preserved by every completed insert and
delete. -/
theorem quota_invariant_preserved :
    (∀ mb : Int, 0 < mb →
      (createDatabaseTenant mb).quotaUsed = 0 ∧
      0 < (createDatabaseTenant mb).quotaLimit ∧
      QuotaInv { tenant := createDatabaseTenant mb, rows := [] }) ∧
    (∀ (s : Store) (docId dataJSON : String),
      QuotaInv s → QuotaInv (insertDocument s docId dataJSON).2) ∧
    (∀ (s : Store) (docId : String),
      QuotaInv s → QuotaInv (deleteDocument s docId).2) := by
  refine ⟨?_, ?_, ?_⟩
  · intro mb hmb
    refine ⟨rfl, ?_, ?_⟩
    · show (0 : Int) < mb * 1024 * 1024
      omega
    · constructor
      · show (0 : Int) ≤ mb * 1024 * 1024
        omega
      · show (0 : Int) ≤ mb * 1024 * 1024
        omega
  · intro s docId dataJSON hinv
    obtain ⟨h0, h1⟩ := hinv
    by_cases hq : s.tenant.quotaUsed + documentSize dataJSON > s.tenant.quotaLimit
    · simp only [insertDocument, updateQuotaAfterInsert, if_pos hq]
      exact ⟨h0, h1⟩
    · simp only [insertDocument, updateQuotaAfterInsert, if_neg hq]
      refine ⟨h0, ?_⟩
      show s.tenant.quotaUsed + documentSize dataJSON ≤ s.tenant.quotaLimit
      omega
  · intro s docId hinv
    obtain ⟨h0, h1⟩ := hinv
    cases hl : lookupKey docId s.rows with
    | none => simp only [deleteDocument, hl]; exact ⟨h0, h1⟩
    | some dataJSON =>
      simp only [deleteDocument, hl]
      refine ⟨h0, ?_⟩
      have hsz : (0 : Int) ≤ documentSize dataJSON := Int.natCast_nonneg _
      dsimp only
      split <;> omega

/-- C2 witness: the invariant instantiated at a concrete tenant (limit 100
bytes, 0 used) and a concrete 5-byte insert. -/
theorem quota_invariant_preserved_witness :
    QuotaInv (insertDocument ⟨⟨0, 100⟩, []⟩ "doc_a" "aaaaa").2 :=
  quota_invariant_preserved.2.1 ⟨⟨0, 100⟩, []⟩ "doc_a" "aaaaa" ⟨by decide, by decide⟩

/-- C3. A successful insert raises `quota_used` by exactly the serialized
size of the inserted document; deleting a stored document succeeds and
lowers `quota_used` by exactly its stored serialized size, floored at zero. -/
theorem quota_accounting_exact :
    (∀ (s : Store) (docId dataJSON : String),
      (insertDocument s docId dataJSON).1 = InsertOutcome.ok →
      ((insertDocument s docId dataJSON).2).tenant.quotaUsed
        = s.tenant.quotaUsed + documentSize dataJSON) ∧
    (∀ (s : Store) (docId dataJSON : String),
      lookupKey docId s.rows = some dataJSON →
      (deleteDocument s docId).1 = DeleteOutcome.ok ∧
      ((deleteDocument s docId).2).tenant.quotaUsed
        = max 0 (s.tenant.quotaUsed - documentSize dataJSON)) := by
  constructor
  · intro s docId dataJSON hok
    by_cases hq : s.tenant.quotaUsed + documentSize dataJSON > s.tenant.quotaLimit
    · simp [insertDocument, updateQuotaAfterInsert, if_pos hq] at hok
    · simp only [insertDocument, updateQuotaAfterInsert, if_neg hq]
  · intro s docId dataJSON hl
    simp only [deleteDocument, hl]
    refine ⟨trivial, ?_⟩
    dsimp only
    split <;> omega

/-- C3 witness: inserting a 4-byte document into a tenant with 3 bytes used
lands at exactly 7 bytes used. -/
theorem quota_accounting_exact_witness :
    ((insertDocument ⟨⟨3, 100⟩, []⟩ "doc_b" "data").2).tenant.quotaUsed
      = (3 : Int) + documentSize "data" :=
  quota_accounting_exact.1 ⟨⟨3, 100⟩, []⟩ "doc_b" "data" (by decide)

/-- C5. An insert rejected for quota leaves the store exactly as it was: the
rollback removes the freshly inserted row (its randomly generated id is not a
key of the prior rows) and the quota row was never written. -/
theorem quota_rejection_leaves_state_unchanged (s : Store) (docId dataJSON : String)
    (hfresh : lookupKey docId s.rows = none)
    (hrej : (insertDocument s docId dataJSON).1 = InsertOutcome.quotaExceeded) :
    (insertDocument s docId dataJSON).2 = s := by
  by_cases hq : s.tenant.quotaUsed + documentSize dataJSON > s.tenant.quotaLimit
  · simp only [insertDocument, updateQuotaAfterInsert, if_pos hq]
    have hsplit :
        ((s.rows ++ [(docId, dataJSON)]).filter fun r => r.1 ≠ docId) = s.rows := by
      rw [List.filter_append, lookupKey_none_filter docId s.rows hfresh]
      simp
    rw [hsplit]
  · simp [insertDocument, updateQuotaAfterInsert, if_neg hq] at hrej

/-- C5 witness: a 4-byte insert into a tenant whose remaining quota is 1 byte
is rejected and the concrete store is returned unchanged. -/
theorem quota_rejection_leaves_state_unchanged_witness :
    (insertDocument ⟨⟨0, 1⟩, [("doc_b", "xy")]⟩ "doc_a" "data").2
      = ⟨⟨0, 1⟩, [("doc_b", "xy")]⟩ :=
  quota_rejection_leaves_state_unchanged ⟨⟨0, 1⟩, [("doc_b", "xy")]⟩ "doc_a" "data"
    (by decide) (by decide)

theorem validateFieldValue_eq_true (v : Value) (t : FieldType) :
    validateFieldValue v t = true ↔
      ((t = "string" ∧ ∃ s, v = Value.str s) ∨
       (t = "number" ∧ ∃ q, v = Value.num q) ∨
       (t = "bool" ∧ ∃ b, v = Value.bool b)) := by
  unfold validateFieldValue
  by_cases h1 : t = "string"
  · subst h1; cases v <;> simp
  · by_cases h2 : t = "number"
    · subst h2; cases v <;> simp
    · by_cases h3 : t = "bool"
      · subst h3; cases v <;> simp
      · simp [h1, h2, h3]

/-- C6. `ValidateDocument` accepts a document against a schema exactly when
every field present in the document is declared in the schema with a matching
type (string / numeric / boolean) and every declared field is present: in
particular partial documents, undeclared fields and mistyped fields are all
rejected, as the concrete instances spell out. -/
theorem validateDocument_accepts_iff :
    (∀ (data : DocData) (schemaFields : SchemaFields),
      validateDocument data schemaFields = true ↔
        ((∀ kv ∈ data, ∃ t, lookupKey kv.1 schemaFields = some t ∧
            ((t = "string" ∧ ∃ s, kv.2 = Value.str s) ∨
             (t = "number" ∧ ∃ q, kv.2 = Value.num q) ∨
             (t = "bool" ∧ ∃ b, kv.2 = Value.bool b))) ∧
         (∀ kt ∈ schemaFields, ∃ v, lookupKey kt.1 data = some v))) ∧
    validateDocument [("name", Value.str "Alice"), ("age", Value.num 25)]
      [("name", "string"), ("age", "number")] = true ∧
    validateDocument [("name", Value.str "Alice")]
      [("name", "string"), ("age", "number")] = false ∧
    validateDocument [("name", Value.str "Alice"), ("age", Value.num 25),
        ("extra", Value.bool true)]
      [("name", "string"), ("age", "number")] = false ∧
    validateDocument [("name", Value.bool true), ("age", Value.num 25)]
      [("name", "string"), ("age", "number")] = false := by
  refine ⟨?_, by decide, by decide, by decide, by decide⟩
  intro data schemaFields
  unfold validateDocument
  rw [Bool.and_eq_true, List.all_eq_true, List.all_eq_true]
  constructor
  · rintro ⟨hleft, hright⟩
    constructor
    · intro kv hkv
      have h := hleft kv hkv
      cases hlk : lookupKey kv.1 schemaFields with
      | none => rw [hlk] at h; cases h
      | some t =>
        rw [hlk] at h
        exact ⟨t, rfl, (validateFieldValue_eq_true kv.2 t).1 h⟩
    · intro kt hkt
      have h := hright kt hkt
      cases hlk : lookupKey kt.1 data with
      | none => rw [hlk] at h; cases h
      | some v => exact ⟨v, rfl⟩
  · rintro ⟨hleft, hright⟩
    constructor
    · intro kv hkv
      obtain ⟨t, hlk, hmatch⟩ := hleft kv hkv
      rw [hlk]
      exact (validateFieldValue_eq_true kv.2 t).2 hmatch
    · intro kt hkt
      obtain ⟨v, hlk⟩ := hright kt hkt
      rw [hlk]
      rfl

/-- The spec's example collection: one active, one pending, one archived
document, the archived one newest, the active one oldest. -/
def exampleActive : DocRow := ⟨"doc_1", 1, [("status", Value.str "active")]⟩

def examplePending : DocRow := ⟨"doc_2", 2, [("status", Value.str "pending")]⟩

def exampleArchived : DocRow := ⟨"doc_3", 3, [("status", Value.str "archived")]⟩

theorem matchesFilters_eq_true (d : DocRow) (filters : Filters) :
    matchesFilters d filters = true ↔
      ∀ f ∈ filters, f.2 = [] ∨
        ∃ v, lookupKey f.1 d.data = some v ∧ ∃ fv ∈ f.2, matchesValue v fv = true := by
  unfold matchesFilters
  rw [List.all_eq_true]
  refine forall_congr' fun f => ?_
  refine imp_congr_right fun _ => ?_
  by_cases hemp : f.2.isEmpty
  · simp [hemp, List.isEmpty_iff.1 hemp]
  · rw [if_neg hemp]
    have hne : ¬(f.2 = []) := fun h => hemp (by simp [h])
    cases hlk : lookupKey f.1 d.data with
    | none => simp [hne]
    | some v => simp [hne, List.any_eq_true]

/-- C7. With no LIMIT/OFFSET clause, `QueryDocuments` returns exactly the
stored documents matching the filters, in creation-time-descending order;
`matchesFilters` ANDs the filtered fields, ORs the values of one field,
treats a missing field as no match, and `matchesValue` compares by the
stored value's type — string equality, numeric equality after parsing,
boolean equality after parsing — as the spec's active/pending example
instance shows concretely. -/
theorem query_returns_matching_newest_first :
    (∀ (rows : List DocRow) (filters : Filters),
      queryDocuments rows 0 0 filters
        = (sortByCreatedDesc rows).filter fun d => matchesFilters d filters) ∧
    (∀ (rows : List DocRow) (filters : Filters),
      List.Sorted createdDesc (queryDocuments rows 0 0 filters)) ∧
    (∀ (rows : List DocRow) (filters : Filters) (d : DocRow),
      d ∈ queryDocuments rows 0 0 filters ↔ d ∈ rows ∧ matchesFilters d filters = true) ∧
    (∀ (d : DocRow) (filters : Filters),
      matchesFilters d filters = true ↔
        ∀ f ∈ filters, f.2 = [] ∨
          ∃ v, lookupKey f.1 d.data = some v ∧ ∃ fv ∈ f.2, matchesValue v fv = true) ∧
    (∀ (v : String) (fv : String), matchesValue (Value.str v) fv = true ↔ v = fv) ∧
    (∀ (q : Rat) (fv : String), matchesValue (Value.num q) fv = true ↔ parseFloatQ fv = some q) ∧
    (∀ (b : Bool) (fv : String), matchesValue (Value.bool b) fv = true ↔ parseBoolGo fv = some b) ∧
    queryDocuments [exampleActive, exampleArchived, examplePending] 0 0
        [("status", ["active", "pending"])]
      = [examplePending, exampleActive] := by
  have hplain : ∀ (rows : List DocRow) (filters : Filters),
      queryDocuments rows 0 0 filters
        = (sortByCreatedDesc rows).filter fun d => matchesFilters d filters := by
    intro rows filters
    simp [queryDocuments]
  refine ⟨hplain, ?_, ?_, matchesFilters_eq_true, ?_, ?_, ?_, by decide⟩
  · intro rows filters
    rw [hplain]
    exact (List.sorted_insertionSort createdDesc rows).filter _
  · intro rows filters d
    rw [hplain, List.mem_filter]
    unfold sortByCreatedDesc
    rw [(List.perm_insertionSort createdDesc rows).mem_iff]
  · intro v fv
    simp [matchesValue]
  · intro q fv
    cases hp : parseFloatQ fv with
    | none => simp [matchesValue, hp]
    | some f =>
      simp only [matchesValue, hp, decide_eq_true_eq, Option.some_inj]
      exact ⟨fun h => h.symm, fun h => h.symm⟩
  · intro b fv
    cases hp : parseBoolGo fv with
    | none => simp [matchesValue, hp]
    | some bb =>
      simp only [matchesValue, hp, decide_eq_true_eq, Option.some_inj]
      exact ⟨fun h => h.symm, fun h => h.symm⟩

theorem queue_sendNonBlocking (e : ChangeEvent) (l : QListener) :
    (sendNonBlocking e l).queue = if l.queue.length < 10 then l.queue ++ [e] else l.queue := by
  unfold sendNonBlocking
  split <;> rfl

theorem queues_after_send (e : ChangeEvent) (ls : List QListener) :
    (ls.map (sendNonBlocking e)).map (fun l => l.queue)
      = (ls.map fun l => l.queue).map fun q => if q.length < 10 then q ++ [e] else q := by
  induction ls with
  | nil => rfl
  | cons x xs ih => simp [ih, queue_sendNonBlocking]

/-- C8. `Broadcast` appends the event to the queue of every tenant-level
listener of the event's tenant and every collection-level listener of that
tenant+collection pair whose queue is below its capacity of 10, drops it for
any such listener whose queue is full, and leaves every other listener's
queue untouched; it is a total function — it never blocks and never reports
a delivery failure. -/
theorem broadcast_best_effort_delivery :
    (∀ (b : BroadcastState) (dbID : String) (e : ChangeEvent) (db : String),
      dbQueues (broadcast b dbID e) db
        = (dbQueues b db).map fun q =>
            if db = dbID ∧ q.length < 10 then q ++ [e] else q) ∧
    (∀ (b : BroadcastState) (dbID : String) (e : ChangeEvent) (db col : String),
      colQueues (broadcast b dbID e) db col
        = (colQueues b db col).map fun q =>
            if db = dbID ∧ col = e.collection ∧ q.length < 10 then q ++ [e] else q) := by
  constructor
  · intro b dbID e db
    unfold dbQueues broadcast
    rw [lookupKey_map_update dbID db (List.map (sendNonBlocking e)) b.databaseListeners]
    by_cases hdb : db = dbID
    · subst hdb
      rw [if_pos rfl]
      cases hl : lookupKey db b.databaseListeners with
      | none => simp
      | some ls => simp [queues_after_send, queue_sendNonBlocking]
    · rw [if_neg hdb]
      simp [hdb]
  · intro b dbID e db col
    unfold colQueues broadcast
    rw [lookupKey_map_update dbID db _ b.collectionListeners]
    by_cases hdb : db = dbID
    · subst hdb
      rw [if_pos rfl]
      cases hl : lookupKey db b.collectionListeners with
      | none => simp [lookupKey]
      | some cols =>
        simp only [Option.map_some', Option.getD_some]
        rw [lookupKey_map_update e.collection col (List.map (sendNonBlocking e)) cols]
        by_cases hcol : col = e.collection
        · rw [if_pos hcol]
          cases hl2 : lookupKey col cols with
          | none => simp
          | some ls => simp [queues_after_send, queue_sendNonBlocking, hcol]
        · rw [if_neg hcol]
          simp [hcol]
    · rw [if_neg hdb]
      simp [hdb]

theorem parseLimitParam_pos (s : String) : 0 < parseLimitParam s := by
  unfold parseLimitParam
  split
  · omega
  · split
    · split
      · split <;> omega
      · omega
    · omega

theorem parseLimitParam_le (s : String) : parseLimitParam s ≤ 1000 := by
  unfold parseLimitParam
  split
  · omega
  · split
    · split
      · split <;> omega
      · omega
    · omega

theorem parseOffsetParam_nonneg (s : String) : 0 ≤ parseOffsetParam s := by
  unfold parseOffsetParam
  split
  · omega
  · split
    · split <;> omega
    · omega

/-- C10. The public query path defaults the limit to 100 when the parameter
is absent, unparsable or non-positive, caps it at 1000, and applies
limit/offset to the creation-time-descending row sequence before the filters
are evaluated — so, as the closing concrete instance shows, a filtered query
can return fewer than `limit` matching documents although more matching
documents are stored. -/
theorem api_query_pagination_before_filters :
    (∀ s : String, 1 ≤ parseLimitParam s ∧ parseLimitParam s ≤ 1000) ∧
    parseLimitParam "" = 100 ∧
    (∀ s : String, goAtoi s = none → parseLimitParam s = 100) ∧
    (∀ (s : String) (v : Int), goAtoi s = some v → v ≤ 0 → parseLimitParam s = 100) ∧
    (∀ (s : String) (v : Int), goAtoi s = some v → 0 < v → parseLimitParam s = min v 1000) ∧
    (∀ (rows : List DocRow) (limitStr offsetStr : String) (filters : Filters),
      apiQueryDocuments rows limitStr offsetStr filters
        = (((sortByCreatedDesc rows).drop (parseOffsetParam offsetStr).toNat).take
              (parseLimitParam limitStr).toNat).filter
            fun d => matchesFilters d filters) ∧
    (apiQueryDocuments [exampleActive, exampleArchived] "1" ""
        [("status", ["active"])] = [] ∧
     ([exampleActive, exampleArchived].filter
        (fun d => matchesFilters d [("status", ["active"])])).length = 1) := by
  have hne : ∀ s : String, goAtoi s = none → parseLimitParam s = 100 := by
    intro s h
    unfold parseLimitParam
    split
    · rfl
    · rw [h]
  refine ⟨fun s => ⟨parseLimitParam_pos s, parseLimitParam_le s⟩, rfl, hne, ?_, ?_, ?_, by decide, by decide⟩
  · intro s v hv hvle
    have hs : ¬(s = "") := by
      intro h
      rw [h] at hv
      simp [goAtoi, parseDigits] at hv
    unfold parseLimitParam
    rw [if_neg hs, hv]
    dsimp only
    rw [if_neg (by omega)]
  · intro s v hv hvpos
    have hs : ¬(s = "") := by
      intro h
      rw [h] at hv
      simp [goAtoi, parseDigits] at hv
    unfold parseLimitParam
    rw [if_neg hs, hv]
    dsimp only
    rw [if_pos (by omega)]
    split <;> omega
  · intro rows limitStr offsetStr filters
    have hl : parseLimitParam limitStr > 0 := parseLimitParam_pos limitStr
    unfold apiQueryDocuments queryDocuments
    dsimp only
    rw [if_pos hl]
    by_cases ho : parseOffsetParam offsetStr > 0
    · rw [if_pos ho]
    · rw [if_neg ho]
      have h0 : parseOffsetParam offsetStr = 0 := by
        have := parseOffsetParam_nonneg offsetStr
        omega
      rw [h0]
      simp

end JsonDrop
